import Mathlib

/-!
# Verification of `crispy::read_selector` (contour, `src/crispy/read_selector.h`)

Shallow embedding of the two readiness-selector backends:

* `posix_read_selector` (the portable `select(2)` backend), and
* `epoll_read_selector` (the Linux `epoll(7)` backend),

together with theorems settling the spec claims about them.

Modelling conventions:

* File descriptors are `Int` (the break-pipe fds are the sentinel `-1`).
* An `fd_set` is a duplicate-free `List Int` (`FD_SET` inserts if absent,
  `FD_CLR` removes, `FD_ISSET` is membership).  The source also passes
  `_writer` and `_except` sets to `select`, but never sets any bit in them
  and never inspects them, so they are omitted from the state.
* The OS readiness call is an explicit input of `wait_one`:
  - for `select`, either `ready R` (the call returned with `R` the set of
    fds readable at the OS level; `R` disjoint from the watched bitmap
    means the call returned `0`, i.e. the timeout expired) or `failed e`
    (the call returned `-1` with `errno = e`).  Per POSIX/Linux semantics,
    on a non-negative return `select` overwrites the read set in place
    with the subset of watched fds that are ready (hence clears it
    entirely on timeout), and leaves the sets unmodified on failure.
  - for `epoll_wait`, a script (list) of outcomes, one per OS call, since
    the source loops retrying the call on `EINTR`; each outcome is either
    `ready evs` (the reported event list, in kernel report order; `[]`
    means the call returned `0`) or `failed e`.
* `errno` is threaded explicitly: `wait_one` takes the thread's errno at
  entry and the result records the errno at return.
* The eventfd counter of the epoll backend is part of the state: `write`
  from `wakeup` adds 1, the drain `read` in `wait_one` succeeds (returns
  `> 0`) exactly when the counter is nonzero and resets it to zero.
-/

namespace ReadSelector

/-- Linux errno values used by the source. -/
def EINTR : Int := 4

/-- Errno `EBADF`: returned by `read` on the never-created break pipe fd `-1`. -/
def EBADF : Int := 9

/-- Errno `EAGAIN` (`EWOULDBLOCK` on Linux). -/
def EAGAIN : Int := 11

/-- Model of `FD_SET`: insert a descriptor into an fd set. -/
def fdSetIns (fd : Int) (s : List Int) : List Int :=
  if fd ∈ s then s else s ++ [fd]

/-- Model of `FD_CLR`: remove a descriptor from an fd set. -/
def fdClr (fd : Int) (s : List Int) : List Int :=
  s.filter (fun x => x ≠ fd)

/-- Result of one `wait_one` call: the returned `std::optional<int>`, the
selector state after the call, and `errno` at return. -/
structure WaitResult (σ : Type) where
  ret : Option Int
  state : σ
  errno : Int
deriving DecidableEq, Repr

/-! ## `posix_read_selector` (select backend) -/

/-- State of `crispy::posix_read_selector`.
`reader` is the `_reader` fd set, `fds` the sorted `_fds` vector, `pending`
the `_pending` deque, `breakPipeRead`/`breakPipeWrite` the two ends of
`_breakPipe` (both initialised to `-1` and never assigned elsewhere in the
source), and `pipeBuf` the number of bytes buffered in the break pipe. -/
structure PosixSelector where
  reader : List Int
  fds : List Int
  pending : List Int
  breakPipeRead : Int
  breakPipeWrite : Int
  pipeBuf : Nat
deriving DecidableEq, Repr

/-- A freshly default-constructed `posix_read_selector`. -/
def posixEmpty : PosixSelector :=
  { reader := [], fds := [], pending := [],
    breakPipeRead := -1, breakPipeWrite := -1, pipeBuf := 0 }

/-- Model of `posix_read_selector::want_read`: `FD_SET(fd, &_reader)`, then
`_fds.push_back(fd)` followed by `std::sort(_fds)`. -/
def posixWantRead (fd : Int) (s : PosixSelector) : PosixSelector :=
  { s with reader := fdSetIns fd s.reader,
           fds := (s.fds ++ [fd]).mergeSort (fun a b => a ≤ b) }

/-- Model of `posix_read_selector::cancel_read`: `FD_CLR` plus erase-remove (which
removes every copy of `fd` from `_fds`). -/
def posixCancelRead (fd : Int) (s : PosixSelector) : PosixSelector :=
  { s with reader := fdClr fd s.reader,
           fds := s.fds.filter (fun x => x ≠ fd) }

/-- Model of `posix_read_selector::create`: default-construct, then `want_read`
each initial descriptor in order. -/
def posixCreate (fds : List Int) : PosixSelector :=
  fds.foldl (fun s fd => posixWantRead fd s) posixEmpty

/-- Model of `posix_read_selector::wakeup`: writes one byte to the break pipe's
write end, but only if that end exists (`!= -1`); the source never creates
the pipe, so the guard matters. -/
def posixWakeup (s : PosixSelector) : PosixSelector :=
  if s.breakPipeWrite ≠ -1 then { s with pipeBuf := s.pipeBuf + 1 } else s

/-- Outcome of the one `::select` call inside `posix_read_selector::wait_one`. -/
inductive PosixOs where
  | ready (readySet : List Int)
  | failed (e : Int)
deriving DecidableEq, Repr

/-- Model of `posix_read_selector::try_pop_pending` (note: sets `errno = EAGAIN`
when the queue is empty). -/
def posixTryPopPending (s : PosixSelector) (e0 : Int) : WaitResult PosixSelector :=
  match s.pending with
  | [] => { ret := none, state := s, errno := EAGAIN }
  | f :: rest => { ret := some f, state := { s with pending := rest }, errno := e0 }

/-- Model of `posix_read_selector::wait_one`.

The source asserts `!_fds.empty()`; the model returns the state unchanged
in that (never-exercised) case.  Otherwise: fast-path pop of `_pending`
(whose failed pop sets `errno = EAGAIN`), then one `::select` on
`_reader` with width `_fds.back() + 1`.  A non-positive result returns
`nullopt`; a positive result first checks `FD_ISSET(_breakPipe[0])`
(drain-and-return path), else scans `_fds` in order, appending every fd
set in the post-call `_reader` to `_pending`, and pops the front. -/
def posixWaitOne (s : PosixSelector) (os : PosixOs) (e0 : Int) :
    WaitResult PosixSelector :=
  if hfds : s.fds = [] then { ret := none, state := s, errno := e0 }
  else
    match s.pending with
    | f :: rest => { ret := some f, state := { s with pending := rest }, errno := e0 }
    | [] =>
      -- failed fast-path pop has set errno to EAGAIN
      match os with
      | .failed e => { ret := none, state := s, errno := e }
      | .ready readySet =>
        let nfds := s.fds.getLast hfds + 1
        -- select overwrites _reader with the ready subset of the watched bits
        let sel := s.reader.filter (fun fd => decide (fd < nfds) && decide (fd ∈ readySet))
        if sel = [] then
          -- result == 0: timed out; select has cleared the whole read set
          { ret := none, state := { s with reader := [] }, errno := EAGAIN }
        else if s.breakPipeRead ∈ sel then
          -- drain the pipe, return nullopt; the drain loop ends with the
          -- errno of the failing read (EBADF on the fd -1 that the source
          -- actually has; EAGAIN once a real drained pipe would block)
          { ret := none,
            state := { s with reader := sel, pipeBuf := 0 },
            errno := if s.breakPipeRead = -1 then EBADF else EAGAIN }
        else
          let batch := s.fds.filter (fun fd => decide (fd ∈ sel))
          match batch with
          | [] => { ret := none, state := { s with reader := sel }, errno := EAGAIN }
          | f :: rest =>
            { ret := some f,
              state := { s with reader := sel, pending := rest },
              errno := EAGAIN }

/-! ## `epoll_read_selector` (epoll backend) -/

/-- State of `crispy::epoll_read_selector`.
`interest` models the kernel epoll interest table (`EPOLL_CTL_ADD` keeps
insertion order and fails with `EEXIST` on a present fd, so the list is
duplicate-free by construction); `counter` is the eventfd counter. -/
structure EpollSelector where
  epollFd : Int
  eventFd : Int
  interest : List Int
  counter : Nat
  pending : List Int
deriving DecidableEq, Repr

/-- Model of `epoll_read_selector::epoll_read_selector()`: the constructor obtains
the epoll fd and the eventfd from the kernel (both checked `!= -1` by
`Require`) and registers the eventfd for `EPOLLIN` — the only entry of the
fresh interest table. -/
def epollInit (epollFd eventFd : Int) : EpollSelector :=
  { epollFd := epollFd, eventFd := eventFd,
    interest := [eventFd], counter := 0, pending := [] }

/-- Model of `epoll_read_selector::~epoll_read_selector()`: the fds closed by the
destructor, in order (`close(_epollFd); close(_eventFd)`). -/
def epollDestroy (s : EpollSelector) : List Int :=
  [s.epollFd, s.eventFd]

/-- Model of `epoll_read_selector::want_read`: `EPOLL_CTL_ADD`, which is a failing
no-op (`EEXIST`, return value ignored by the source) when the fd is
already in the interest table. -/
def epollWantRead (fd : Int) (s : EpollSelector) : EpollSelector :=
  if fd ∈ s.interest then s else { s with interest := s.interest ++ [fd] }

/-- Model of `epoll_read_selector::cancel_read`: `EPOLL_CTL_DEL`. -/
def epollCancelRead (fd : Int) (s : EpollSelector) : EpollSelector :=
  { s with interest := s.interest.filter (fun x => x ≠ fd) }

/-- Model of `epoll_read_selector::wakeup`: `write` of the value 1 to the eventfd
adds 1 to its counter. -/
def epollWakeup (s : EpollSelector) : EpollSelector :=
  { s with counter := s.counter + 1 }

/-- Outcome of one `epoll_wait` call: the reported event fds in kernel
report order (`[]` for a `0` return, i.e. timeout), or `-1` with errno. -/
inductive EpollOs where
  | ready (evs : List Int)
  | failed (e : Int)
deriving DecidableEq, Repr

/-- The triage loop over one batch of reported events: an event on the
eventfd drains it (`read` returns `> 0` iff the counter was nonzero,
resetting it, and `piped` is *assigned*, not or-ed); any other fd is
appended to `_pending` in report order. -/
def epollTriage (eventFd : Int) (evs : List Int) (pend : List Int)
    (cnt : Nat) (piped : Bool) : List Int × Nat × Bool :=
  match evs with
  | [] => (pend, cnt, piped)
  | fd :: rest =>
    if fd = eventFd then epollTriage eventFd rest pend 0 (decide (0 < cnt))
    else epollTriage eventFd rest (pend ++ [fd]) cnt piped

/-- Model of `epoll_read_selector::try_pop_pending` (unlike the posix variant it
does not touch errno). -/
def epollTryPopPending (s : EpollSelector) (e0 : Int) : WaitResult EpollSelector :=
  match s.pending with
  | [] => { ret := none, state := s, errno := e0 }
  | f :: rest => { ret := some f, state := { s with pending := rest }, errno := e0 }

/-- The `for (;;)` retry loop of `epoll_read_selector::wait_one`, driven
by the script of `epoll_wait` outcomes (one per iteration).  An exhausted
script (never reached under the theorems' hypotheses) returns `nullopt`
with errno unchanged. -/
def epollWaitLoop (s : EpollSelector) : List EpollOs → Int → WaitResult EpollSelector
  | [], e0 => { ret := none, state := s, errno := e0 }
  | .failed e :: rest, _ =>
    if e = EINTR then epollWaitLoop s rest EINTR
    else { ret := none, state := s, errno := e }
  | .ready [] :: _, _ => { ret := none, state := s, errno := EAGAIN }
  | .ready (f :: evs) :: _, e0 =>
    let t := epollTriage s.eventFd (f :: evs) s.pending s.counter false
    match t.1 with
    | [] => { ret := none,
              state := { s with pending := [], counter := t.2.1 },
              errno := if t.2.2 then EINTR else EAGAIN }
    | g :: rest' =>
      { ret := some g,
        state := { s with pending := rest', counter := t.2.1 },
        errno := e0 }

/-- Model of `epoll_read_selector::wait_one`: fast-path pop of `_pending`, then the
`epoll_wait` retry loop. -/
def epollWaitOne (s : EpollSelector) (script : List EpollOs) (e0 : Int) :
    WaitResult EpollSelector :=
  match s.pending with
  | f :: rest => { ret := some f, state := { s with pending := rest }, errno := e0 }
  | [] => epollWaitLoop s script e0

/-! ## Successive calls and reachable states -/

/-- Run a sequence of `posix_read_selector::wait_one` calls; each call is
given the outcome of its `::select` invocation (consulted only if the call
reaches the OS) and the entry errno.  Returns the list of returned values
and the final state. -/
def posixRun (s : PosixSelector) : List (PosixOs × Int) → List (Option Int) × PosixSelector
  | [] => ([], s)
  | (os, e) :: rest =>
    let r := posixWaitOne s os e
    let (outs, s') := posixRun r.state rest
    (r.ret :: outs, s')

/-- Run a sequence of `epoll_read_selector::wait_one` calls; each call is
given its own script of `epoll_wait` outcomes and the entry errno. -/
def epollRun (s : EpollSelector) : List (List EpollOs × Int) → List (Option Int) × EpollSelector
  | [] => ([], s)
  | (script, e) :: rest =>
    let r := epollWaitOne s script e
    let (outs, s') := epollRun r.state rest
    (r.ret :: outs, s')

/-- States of `posix_read_selector` reachable through its public
interface.  `want_read` is only invoked on real descriptors (`0 ≤ fd`):
`FD_SET` on a negative fd is undefined behaviour, and the spec's
precondition is that registered fds denote open resources. -/
inductive PosixReach : PosixSelector → Prop where
  | create (fds : List Int) (h : ∀ fd ∈ fds, 0 ≤ fd) : PosixReach (posixCreate fds)
  | want {s : PosixSelector} (fd : Int) (h : 0 ≤ fd) :
      PosixReach s → PosixReach (posixWantRead fd s)
  | cancel {s : PosixSelector} (fd : Int) :
      PosixReach s → PosixReach (posixCancelRead fd s)
  | wake {s : PosixSelector} : PosixReach s → PosixReach (posixWakeup s)
  | wait {s : PosixSelector} (os : PosixOs) (e0 : Int) :
      PosixReach s → PosixReach (posixWaitOne s os e0).state

/-- States of `epoll_read_selector` reachable through its public
interface (with arbitrary, even adversarial, `epoll_wait` outcomes). -/
inductive EpollReach : EpollSelector → Prop where
  | init (epollFd eventFd : Int) : EpollReach (epollInit epollFd eventFd)
  | want {s : EpollSelector} (fd : Int) : EpollReach s → EpollReach (epollWantRead fd s)
  | cancel {s : EpollSelector} (fd : Int) : EpollReach s → EpollReach (epollCancelRead fd s)
  | wake {s : EpollSelector} : EpollReach s → EpollReach (epollWakeup s)
  | wait {s : EpollSelector} (script : List EpollOs) (e0 : Int) :
      EpollReach s → EpollReach (epollWaitOne s script e0).state

/-! ## Helper lemmas -/

lemma posixCreate_one : posixCreate [5] =
    { reader := [5], fds := [5], pending := [],
      breakPipeRead := -1, breakPipeWrite := -1, pipeBuf := 0 } := by
  simp [posixCreate, posixWantRead, posixEmpty, fdSetIns]

lemma posixCreate_two : posixCreate [5, 9] =
    { reader := [5, 9], fds := [5, 9], pending := [],
      breakPipeRead := -1, breakPipeWrite := -1, pipeBuf := 0 } := by
  simp [posixCreate, posixWantRead, posixEmpty, fdSetIns]
  exact List.mergeSort_of_sorted (by decide)

lemma posixWant_dup : posixWantRead 5 (posixWantRead 5 posixEmpty) =
    { reader := [5], fds := [5, 5], pending := [],
      breakPipeRead := -1, breakPipeWrite := -1, pipeBuf := 0 } := by
  simp [posixWantRead, posixEmpty, fdSetIns]
  exact List.mergeSort_of_sorted (by decide)


lemma posixWaitOne_fastpath (s : PosixSelector) (os : PosixOs) (e0 : Int)
    (f : Int) (rest : List Int) (h : s.pending = f :: rest) (hfds : s.fds ≠ []) :
    posixWaitOne s os e0 = { ret := some f, state := { s with pending := rest }, errno := e0 } := by
  unfold posixWaitOne
  rw [dif_neg hfds, h]

lemma posixWaitOne_os_irrelevant (s : PosixSelector) (os os' : PosixOs) (e0 : Int)
    (h : s.pending ≠ []) :
    posixWaitOne s os e0 = posixWaitOne s os' e0 := by
  by_cases hfds : s.fds = []
  · unfold posixWaitOne; rw [dif_pos hfds, dif_pos hfds]
  · match hp : s.pending with
    | [] => exact absurd hp h
    | f :: rest =>
      rw [posixWaitOne_fastpath s os e0 f rest hp hfds,
          posixWaitOne_fastpath s os' e0 f rest hp hfds]

lemma posixWaitOne_failed (s : PosixSelector) (e e0 : Int)
    (hfds : s.fds ≠ []) (hp : s.pending = []) :
    posixWaitOne s (.failed e) e0 = { ret := none, state := s, errno := e } := by
  unfold posixWaitOne
  rw [dif_neg hfds, hp]

lemma posixWaitOne_timeout (s : PosixSelector) (R : List Int) (e0 : Int)
    (hfds : s.fds ≠ []) (hp : s.pending = []) (hR : ∀ fd ∈ s.reader, fd ∉ R) :
    posixWaitOne s (.ready R) e0 =
      { ret := none, state := { s with reader := [] }, errno := EAGAIN } := by
  unfold posixWaitOne
  rw [dif_neg hfds, hp]
  have hsel : s.reader.filter
      (fun fd => decide (fd < s.fds.getLast hfds + 1) && decide (fd ∈ R)) = [] := by
    simp only [List.filter_eq_nil_iff]
    intro a ha
    simp [hR a ha]
  simp [hsel]

lemma le_getLast_of_sorted : ∀ {l : List Int}, l.Pairwise (fun a b => a ≤ b) →
    ∀ (h : l ≠ []) (a : Int), a ∈ l → a ≤ l.getLast h
  | [], _, h, _, _ => absurd rfl h
  | [x], _, _, a, ha => by
    simp only [List.mem_singleton] at ha
    simp [ha, List.getLast]
  | x :: y :: l, hs, h, a, ha => by
    rw [List.getLast_cons (List.cons_ne_nil y l)]
    rcases List.mem_cons.mp ha with rfl | ha'
    · exact (List.pairwise_cons.mp hs).1 _ (List.getLast_mem (List.cons_ne_nil y l))
    · exact le_getLast_of_sorted (List.pairwise_cons.mp hs).2 (List.cons_ne_nil y l) a ha'

lemma posixWaitOne_batch (s : PosixSelector) (R : List Int) (e0 : Int)
    (hfds : s.fds ≠ []) (hp : s.pending = [])
    (hsort : s.fds.Pairwise (fun a b => a ≤ b))
    (hsync : ∀ fd, fd ∈ s.reader ↔ fd ∈ s.fds)
    (hnn : ∀ fd ∈ s.fds, 0 ≤ fd)
    (hbp : s.breakPipeRead = -1)
    (f : Int) (rest : List Int)
    (hb : s.fds.filter (fun fd => decide (fd ∈ R)) = f :: rest) :
    posixWaitOne s (.ready R) e0 =
      { ret := some f,
        state := { s with
            reader := s.reader.filter (fun fd => decide (fd ∈ R)),
            pending := rest },
        errno := EAGAIN } := by
  unfold posixWaitOne
  rw [dif_neg hfds, hp]
  have hsel : s.reader.filter
      (fun fd => decide (fd < s.fds.getLast hfds + 1) && decide (fd ∈ R)) =
      s.reader.filter (fun fd => decide (fd ∈ R)) := by
    apply List.filter_congr
    intro fd hfd
    have hmem : fd ∈ s.fds := (hsync fd).mp hfd
    have hle : fd ≤ s.fds.getLast hfds := le_getLast_of_sorted hsort hfds fd hmem
    have : decide (fd < s.fds.getLast hfds + 1) = true := by
      simp; omega
    rw [this, Bool.true_and]
  have hfR : f ∈ s.fds ∧ f ∈ R := by
    have : f ∈ s.fds.filter (fun fd => decide (fd ∈ R)) := by rw [hb]; exact List.mem_cons_self f rest
    simpa using List.mem_filter.mp this
  have hselne : s.reader.filter (fun fd => decide (fd ∈ R)) ≠ [] := by
    apply List.ne_nil_of_mem (a := f)
    exact List.mem_filter.mpr ⟨(hsync f).mpr hfR.1, by simpa using hfR.2⟩
  have hnotbp : s.breakPipeRead ∉ s.reader.filter (fun fd => decide (fd ∈ R)) := by
    intro hmem
    have h1 : s.breakPipeRead ∈ s.reader := (List.mem_filter.mp hmem).1
    have h2 : (0 : Int) ≤ s.breakPipeRead := hnn _ ((hsync _).mp h1)
    rw [hbp] at h2
    omega
  have hbatch : s.fds.filter
      (fun fd => decide (fd ∈ s.reader.filter (fun fd => decide (fd ∈ R)))) =
      s.fds.filter (fun fd => decide (fd ∈ R)) := by
    apply List.filter_congr
    intro fd hfd
    simp only [decide_eq_decide, List.mem_filter, decide_eq_true_eq]
    constructor
    · exact fun h => h.2
    · exact fun h => ⟨(hsync fd).mpr hfd, h⟩
  simp only [hsel, if_neg hselne, if_neg hnotbp, hbatch, hb]

lemma posixRun_cons (s : PosixSelector) (os : PosixOs) (e : Int)
    (rest : List (PosixOs × Int)) :
    posixRun s ((os, e) :: rest) =
      ((posixWaitOne s os e).ret :: (posixRun (posixWaitOne s os e).state rest).1,
       (posixRun (posixWaitOne s os e).state rest).2) := by
  simp [posixRun]

lemma posixRun_drain : ∀ (p : List Int) (s : PosixSelector) (e : Int),
    s.fds ≠ [] → s.pending = p →
    (posixRun s (List.replicate (p.length + 1) (PosixOs.ready [], e))).1 =
      p.map some ++ [none]
  | [], s, e, hfds, hp => by
    simp only [List.length_nil, Nat.zero_add, List.replicate_one, posixRun_cons]
    rw [posixWaitOne_timeout s [] e hfds hp (by simp)]
    simp [posixRun]
  | f :: rest, s, e, hfds, hp => by
    rw [List.replicate_succ, posixRun_cons,
        posixWaitOne_fastpath s (PosixOs.ready []) e f rest hp hfds]
    have ih := posixRun_drain rest { s with pending := rest } e hfds rfl
    simp only [List.length_cons] at ih ⊢
    simp [ih]

lemma epollTriage_pending (ev : Int) : ∀ (evs pend : List Int) (c : Nat) (p : Bool),
    (epollTriage ev evs pend c p).1 = pend ++ evs.filter (fun fd => decide (fd ≠ ev))
  | [], pend, c, p => by simp [epollTriage]
  | fd :: rest, pend, c, p => by
    by_cases h : fd = ev
    · simp [epollTriage, h, epollTriage_pending ev rest pend 0 (decide (0 < c))]
    · simp [epollTriage, h, epollTriage_pending ev rest (pend ++ [fd]) c p]

lemma epollTriage_notin (ev : Int) : ∀ (evs pend : List Int) (c : Nat) (p : Bool),
    ev ∉ evs → (epollTriage ev evs pend c p).2 = (c, p)
  | [], pend, c, p, _ => by simp [epollTriage]
  | fd :: rest, pend, c, p, h => by
    have hfd : fd ≠ ev := fun hc => h (hc ▸ List.mem_cons_self fd rest)
    have hrest : ev ∉ rest := fun hc => h (List.mem_cons_of_mem fd hc)
    simp [epollTriage, hfd, epollTriage_notin ev rest (pend ++ [fd]) c p hrest]

lemma epollTriage_piped (ev : Int) : ∀ (evs pend : List Int) (c : Nat),
    evs.count ev ≤ 1 → (ev ∈ evs → 0 < c) →
    (epollTriage ev evs pend c false).2.2 = decide (ev ∈ evs)
  | [], pend, c, _, _ => by simp [epollTriage]
  | fd :: rest, pend, c, hcount, hpos => by
    by_cases h : fd = ev
    · subst h
      have hc : 0 < c := hpos (List.mem_cons_self fd rest)
      have hnot : fd ∉ rest := by
        intro hmem
        have : 2 ≤ (fd :: rest).count fd := by
          rw [List.count_cons_self]
          have := List.one_le_count_iff.mpr hmem
          omega
        omega
      simp [epollTriage, epollTriage_notin fd rest pend 0 (decide (0 < c)) hnot,
            epollTriage_notin fd rest pend 0 true hnot, hc]
    · have hcount' : rest.count ev ≤ 1 := by
        rw [List.count_cons_of_ne (by exact fun hc => h hc.symm)] at hcount
        exact hcount
      have hpos' : ev ∈ rest → 0 < c := fun hm => hpos (List.mem_cons_of_mem fd hm)
      have hne : ev ≠ fd := fun hc => h hc.symm
      simp [epollTriage, h, epollTriage_piped ev rest (pend ++ [fd]) c hcount' hpos', hne]

lemma epollTriage_counter (ev : Int) : ∀ (evs pend : List Int) (c : Nat) (p : Bool),
    (epollTriage ev evs pend c p).2.1 = if ev ∈ evs then 0 else c
  | [], pend, c, p => by simp [epollTriage]
  | fd :: rest, pend, c, p => by
    by_cases h : fd = ev
    · subst h
      by_cases hrest : fd ∈ rest
      · simp [epollTriage, epollTriage_counter fd rest pend 0 (decide (0 < c)), hrest]
      · simp [epollTriage, epollTriage_counter fd rest pend 0 (decide (0 < c)), hrest]
    · have hne : ev ≠ fd := fun hc => h hc.symm
      simp [epollTriage, h, epollTriage_counter ev rest (pend ++ [fd]) c p, hne]

lemma epollWaitLoop_eintr (s : EpollSelector) (rest : List EpollOs) (e0 : Int) :
    epollWaitLoop s (.failed EINTR :: rest) e0 = epollWaitLoop s rest EINTR := by
  simp [epollWaitLoop]

lemma epollWaitLoop_failed (s : EpollSelector) (e : Int) (rest : List EpollOs) (e0 : Int)
    (h : e ≠ EINTR) :
    epollWaitLoop s (.failed e :: rest) e0 = { ret := none, state := s, errno := e } := by
  simp [epollWaitLoop, h]

lemma epollWaitLoop_zero (s : EpollSelector) (rest : List EpollOs) (e0 : Int) :
    epollWaitLoop s (.ready [] :: rest) e0 = { ret := none, state := s, errno := EAGAIN } := by
  simp [epollWaitLoop]

lemma epollWaitOne_of_empty (s : EpollSelector) (script : List EpollOs) (e0 : Int)
    (hp : s.pending = []) : epollWaitOne s script e0 = epollWaitLoop s script e0 := by
  unfold epollWaitOne
  rw [hp]

lemma epollWaitOne_fastpath (s : EpollSelector) (script : List EpollOs) (e0 : Int)
    (f : Int) (rest : List Int) (hp : s.pending = f :: rest) :
    epollWaitOne s script e0 =
      { ret := some f, state := { s with pending := rest }, errno := e0 } := by
  unfold epollWaitOne
  rw [hp]

lemma epollWaitLoop_batch (s : EpollSelector) (f : Int) (evs : List Int)
    (rest : List EpollOs) (e0 : Int) (hp : s.pending = []) :
    epollWaitLoop s (.ready (f :: evs) :: rest) e0 =
      (match (f :: evs).filter (fun fd => decide (fd ≠ s.eventFd)) with
       | [] =>
         { ret := none,
           state := { s with
                      pending := [],
                      counter := if s.eventFd ∈ f :: evs then 0 else s.counter },
           errno := if (epollTriage s.eventFd (f :: evs) [] s.counter false).2.2
                    then EINTR else EAGAIN }
       | g :: rest' =>
         { ret := some g,
           state := { s with
                      pending := rest',
                      counter := if s.eventFd ∈ f :: evs then 0 else s.counter },
           errno := e0 }) := by
  unfold epollWaitLoop
  rw [hp]
  simp only [epollTriage_pending s.eventFd (f :: evs) [] s.counter false,
             epollTriage_counter s.eventFd (f :: evs) [] s.counter false,
             List.nil_append]

lemma epollRun_cons (s : EpollSelector) (script : List EpollOs) (e : Int)
    (rest : List (List EpollOs × Int)) :
    epollRun s ((script, e) :: rest) =
      ((epollWaitOne s script e).ret :: (epollRun (epollWaitOne s script e).state rest).1,
       (epollRun (epollWaitOne s script e).state rest).2) := by
  simp [epollRun]

lemma epollRun_drain : ∀ (p : List Int) (s : EpollSelector) (e : Int),
    s.pending = p →
    (epollRun s (List.replicate (p.length + 1) ([EpollOs.ready []], e))).1 =
      p.map some ++ [none]
  | [], s, e, hp => by
    simp only [List.length_nil, Nat.zero_add, List.replicate_one, epollRun_cons]
    rw [epollWaitOne_of_empty s _ e hp, epollWaitLoop_zero]
    simp [epollRun]
  | f :: rest, s, e, hp => by
    rw [List.replicate_succ, epollRun_cons,
        epollWaitOne_fastpath s [EpollOs.ready []] e f rest hp]
    have ih := epollRun_drain rest { s with pending := rest } e rfl
    simp only [List.length_cons] at ih ⊢
    simp [ih]

lemma posixWaitOne_const (s : PosixSelector) (os : PosixOs) (e0 : Int) :
    (posixWaitOne s os e0).state.breakPipeRead = s.breakPipeRead ∧
    (posixWaitOne s os e0).state.breakPipeWrite = s.breakPipeWrite ∧
    (posixWaitOne s os e0).state.fds = s.fds := by
  simp only [posixWaitOne]
  repeat' split
  all_goals simp

lemma posixWaitOne_pending_mem (s : PosixSelector) (os : PosixOs) (e0 : Int) :
    ∀ x ∈ (posixWaitOne s os e0).state.pending, x ∈ s.pending ∨ x ∈ s.fds := by
  simp only [posixWaitOne]
  split
  case isTrue => exact fun x hx => Or.inl hx
  case isFalse hfds =>
    split
    case h_1 f rest heq => exact fun x hx => Or.inl (heq ▸ List.mem_cons_of_mem f hx)
    case h_2 heq =>
      split
      case h_1 e => exact fun x hx => Or.inl hx
      case h_2 R =>
        split
        case isTrue => exact fun x hx => Or.inl hx
        case isFalse hsel =>
          split
          case isTrue => exact fun x hx => Or.inl hx
          case isFalse hbp =>
            split
            case h_1 heq2 => exact fun x hx => Or.inl hx
            case h_2 f rest heq2 =>
              exact fun x hx =>
                Or.inr (List.mem_filter.mp (heq2 ▸ List.mem_cons_of_mem f hx)).1

lemma posixWaitOne_ret_mem (s : PosixSelector) (os : PosixOs) (e0 : Int) (f : Int) :
    (posixWaitOne s os e0).ret = some f → f ∈ s.pending ∨ f ∈ s.fds := by
  simp only [posixWaitOne]
  split
  case isTrue => intro hx; exact absurd hx (by simp)
  case isFalse hfds =>
    split
    case h_1 g rest heq =>
      intro hx
      have : g = f := by simpa using hx
      exact Or.inl (heq ▸ (this ▸ List.mem_cons_self g rest))
    case h_2 heq =>
      split
      case h_1 e => intro hx; exact absurd hx (by simp)
      case h_2 R =>
        split
        case isTrue => intro hx; exact absurd hx (by simp)
        case isFalse hsel =>
          split
          case isTrue => intro hx; exact absurd hx (by simp)
          case isFalse hbp =>
            split
            case h_1 heq2 => intro hx; exact absurd hx (by simp)
            case h_2 g rest heq2 =>
              intro hx
              have hgf : g = f := by simpa using hx
              have hg : g ∈ s.fds := (List.mem_filter.mp (heq2 ▸ List.mem_cons_self g rest)).1
              exact Or.inr (hgf ▸ hg)

lemma epollWaitLoop_const (s : EpollSelector) : ∀ (script : List EpollOs) (e0 : Int),
    (epollWaitLoop s script e0).state.eventFd = s.eventFd ∧
    (epollWaitLoop s script e0).state.epollFd = s.epollFd ∧
    (epollWaitLoop s script e0).state.interest = s.interest
  | [], e0 => by simp [epollWaitLoop]
  | .failed e :: rest, e0 => by
    by_cases h : e = EINTR
    · simpa [epollWaitLoop, h] using epollWaitLoop_const s rest EINTR
    · simp [epollWaitLoop, h]
  | .ready [] :: rest, e0 => by simp [epollWaitLoop]
  | .ready (f :: evs) :: rest, e0 => by
    simp only [epollWaitLoop]
    split <;> simp

lemma epollWaitLoop_pending_mem (s : EpollSelector) : ∀ (script : List EpollOs) (e0 : Int),
    ∀ x ∈ (epollWaitLoop s script e0).state.pending, x ∈ s.pending ∨ x ≠ s.eventFd
  | [], e0 => by simp [epollWaitLoop]; exact fun x hx => Or.inl hx
  | .failed e :: rest, e0 => by
    by_cases h : e = EINTR
    · simpa [epollWaitLoop, h] using epollWaitLoop_pending_mem s rest EINTR
    · simp [epollWaitLoop, h]; exact fun x hx => Or.inl hx
  | .ready [] :: rest, e0 => by
    simp [epollWaitLoop]; exact fun x hx => Or.inl hx
  | .ready (f :: evs) :: rest, e0 => by
    simp only [epollWaitLoop]
    rw [epollTriage_pending s.eventFd (f :: evs) s.pending s.counter false]
    split
    case h_1 heq => simp
    case h_2 g rest' heq =>
      intro x hx
      simp only at hx
      have hxt : x ∈ s.pending ++ (f :: evs).filter (fun fd => decide (fd ≠ s.eventFd)) :=
        heq ▸ List.mem_cons_of_mem g hx
      rcases List.mem_append.mp hxt with h1 | h2
      · exact Or.inl h1
      · exact Or.inr (by simpa using (List.mem_filter.mp h2).2)

lemma epollWaitLoop_ret_mem (s : EpollSelector) : ∀ (script : List EpollOs) (e0 : Int) (f : Int),
    (epollWaitLoop s script e0).ret = some f → f ∈ s.pending ∨ f ≠ s.eventFd
  | [], e0, f => by simp [epollWaitLoop]
  | .failed e :: rest, e0, f => by
    by_cases h : e = EINTR
    · simpa [epollWaitLoop, h] using epollWaitLoop_ret_mem s rest EINTR f
    · simp [epollWaitLoop, h]
  | .ready [] :: rest, e0, f => by simp [epollWaitLoop]
  | .ready (g :: evs) :: rest, e0, f => by
    simp only [epollWaitLoop]
    rw [epollTriage_pending s.eventFd (g :: evs) s.pending s.counter false]
    split
    case h_1 heq => simp
    case h_2 g' rest' heq =>
      intro hx
      have hgf : g' = f := by simpa using hx
      have hxt : g' ∈ s.pending ++ (g :: evs).filter (fun fd => decide (fd ≠ s.eventFd)) :=
        heq ▸ List.mem_cons_self g' rest'
      rcases List.mem_append.mp hxt with h1 | h2
      · exact Or.inl (hgf ▸ h1)
      · exact Or.inr (hgf ▸ (by simpa using (List.mem_filter.mp h2).2))

lemma posixWantRead_fds_nonneg (fd : Int) (s : PosixSelector) (hfd : 0 ≤ fd)
    (h : ∀ x ∈ s.fds, 0 ≤ x) : ∀ x ∈ (posixWantRead fd s).fds, 0 ≤ x := by
  intro x hx
  simp only [posixWantRead, List.mem_mergeSort] at hx
  rcases List.mem_append.mp hx with h1 | h2
  · exact h x h1
  · simp only [List.mem_singleton] at h2
    exact h2 ▸ hfd

lemma posixCreate_inv : ∀ (l : List Int) (s0 : PosixSelector),
    s0.breakPipeRead = -1 → s0.breakPipeWrite = -1 →
    (∀ x ∈ s0.fds, 0 ≤ x) → (∀ x ∈ s0.pending, 0 ≤ x) →
    (∀ fd ∈ l, 0 ≤ fd) →
    (l.foldl (fun s fd => posixWantRead fd s) s0).breakPipeRead = -1 ∧
    (l.foldl (fun s fd => posixWantRead fd s) s0).breakPipeWrite = -1 ∧
    (∀ x ∈ (l.foldl (fun s fd => posixWantRead fd s) s0).fds, 0 ≤ x) ∧
    (∀ x ∈ (l.foldl (fun s fd => posixWantRead fd s) s0).pending, 0 ≤ x)
  | [], s0, h1, h2, h3, h4, _ => ⟨h1, h2, h3, h4⟩
  | fd :: rest, s0, h1, h2, h3, h4, hl => by
    simp only [List.foldl_cons]
    exact posixCreate_inv rest (posixWantRead fd s0) h1 h2
      (posixWantRead_fds_nonneg fd s0 (hl fd (List.mem_cons_self fd rest)) h3) h4
      (fun x hx => hl x (List.mem_cons_of_mem fd hx))

lemma posixReach_inv {s : PosixSelector} (h : PosixReach s) :
    s.breakPipeRead = -1 ∧ s.breakPipeWrite = -1 ∧
    (∀ x ∈ s.fds, 0 ≤ x) ∧ (∀ x ∈ s.pending, 0 ≤ x) := by
  induction h with
  | create fds hl =>
    exact posixCreate_inv fds posixEmpty rfl rfl (by simp [posixEmpty]) (by simp [posixEmpty]) hl
  | want fd hfd _ ih =>
    exact ⟨ih.1, ih.2.1, posixWantRead_fds_nonneg fd _ hfd ih.2.2.1, ih.2.2.2⟩
  | cancel fd _ ih =>
    refine ⟨ih.1, ih.2.1, ?_, ih.2.2.2⟩
    intro x hx
    exact ih.2.2.1 x (List.mem_of_mem_filter hx)
  | wake _ ih =>
    rcases ih with ⟨h1, h2, h3, h4⟩
    unfold posixWakeup
    split <;> exact ⟨h1, h2, h3, h4⟩
  | wait os e0 _ ih =>
    obtain ⟨c1, c2, c3⟩ := posixWaitOne_const _ os e0
    refine ⟨c1.trans ih.1, c2.trans ih.2.1, ?_, ?_⟩
    · intro x hx
      rw [c3] at hx
      exact ih.2.2.1 x hx
    intro x hx
    rcases posixWaitOne_pending_mem _ os e0 x hx with h1 | h2
    · exact ih.2.2.2 x h1
    · exact ih.2.2.1 x h2

lemma epollWantRead_eventFd (fd : Int) (s : EpollSelector) :
    (epollWantRead fd s).eventFd = s.eventFd ∧ (epollWantRead fd s).pending = s.pending := by
  unfold epollWantRead
  split <;> simp

lemma epollWaitOne_eventFd (s : EpollSelector) (script : List EpollOs) (e0 : Int) :
    (epollWaitOne s script e0).state.eventFd = s.eventFd := by
  unfold epollWaitOne
  split
  · simp
  · exact (epollWaitLoop_const s script e0).1

lemma epollWaitOne_pending_mem (s : EpollSelector) (script : List EpollOs) (e0 : Int) :
    ∀ x ∈ (epollWaitOne s script e0).state.pending, x ∈ s.pending ∨ x ≠ s.eventFd := by
  unfold epollWaitOne
  split
  case h_1 f rest heq =>
    intro x hx
    exact Or.inl (heq ▸ List.mem_cons_of_mem f hx)
  case h_2 heq => exact epollWaitLoop_pending_mem s script e0

lemma epollWaitOne_ret_mem (s : EpollSelector) (script : List EpollOs) (e0 : Int) (f : Int) :
    (epollWaitOne s script e0).ret = some f → f ∈ s.pending ∨ f ≠ s.eventFd := by
  unfold epollWaitOne
  split
  case h_1 g rest heq =>
    intro hx
    have hgf : g = f := by simpa using hx
    exact Or.inl (heq ▸ (hgf ▸ List.mem_cons_self g rest))
  case h_2 heq => exact epollWaitLoop_ret_mem s script e0 f

lemma epollReach_inv {s : EpollSelector} (h : EpollReach s) :
    s.eventFd ∉ s.pending := by
  induction h with
  | init epollFd eventFd => simp [epollInit]
  | want fd _ ih =>
    obtain ⟨h1, h2⟩ := epollWantRead_eventFd fd _
    rw [h1, h2]
    exact ih
  | cancel fd _ ih => simpa [epollCancelRead] using fun hmem => ih hmem
  | wake _ ih => simpa [epollWakeup] using ih
  | wait script e0 _ ih =>
    intro hmem
    rw [epollWaitOne_eventFd _ script e0] at hmem
    rcases epollWaitOne_pending_mem _ script e0 _ hmem with h1 | h2
    · exact ih h1
    · exact h2 rfl


/-! ## Claim theorems -/


/-- C1 (code evaluation at the failing input).  In the select backend,
`wakeup()` on a freshly created selector is a no-op (the break pipe was
never created), and the next `wait_one` — whose `select` therefore waits
out its whole timeout and returns `0` — yields the TimedOut outcome
(`nullopt`, errno `EAGAIN`) rather than Interrupted.  In the epoll
backend, by contrast, `wakeup()` bumps the eventfd counter and the next
`wait_one` (kernel reporting only the eventfd) returns the Interrupted
outcome (`nullopt`, errno `EINTR`). -/
theorem wakeup_before_wait_eval :
    posixWakeup (posixCreate [5]) = posixCreate [5] ∧
    (posixWaitOne (posixWakeup (posixCreate [5])) (.ready []) 0).ret = none ∧
    (posixWaitOne (posixWakeup (posixCreate [5])) (.ready []) 0).errno = EAGAIN ∧
    (epollWaitOne (epollWakeup (epollWantRead 5 (epollInit 3 4))) [.ready [4]] 0).ret = none ∧
    (epollWaitOne (epollWakeup (epollWantRead 5 (epollInit 3 4))) [.ready [4]] 0).errno = EINTR := by
  rw [posixCreate_one]
  decide

/-- C3 (code evaluation).  Construction of the select backend creates
no wakeup channel at all: `_breakPipe` is `{-1, -1}` after `create` and
stays so under every operation; there is no pipe to destroy.  The epoll
backend does create its eventfd in the constructor (registered in the
interest table) and its destructor closes the epoll fd and the eventfd
once each. -/
theorem wakeup_channel_lifecycle_eval :
    (posixCreate [5]).breakPipeRead = -1 ∧
    (posixCreate [5]).breakPipeWrite = -1 ∧
    (posixWantRead 9 (posixCreate [5])).breakPipeRead = -1 ∧
    (posixWakeup (posixCreate [5])).breakPipeWrite = -1 ∧
    (epollInit 3 4).eventFd = 4 ∧
    4 ∈ (epollInit 3 4).interest ∧
    epollDestroy (epollInit 3 4) = [3, 4] ∧
    (epollDestroy (epollInit 3 4)).Nodup ∧
    (epollWantRead 5 (epollInit 3 4)).eventFd = 4 ∧
    (epollWakeup (epollInit 3 4)).eventFd = 4 := by
  rw [posixCreate_one]
  constructor
  · rfl
  rw [posixWantRead]
  decide

/-- C10 (code evaluation).  For the epoll backend, the TimedOut and
Error outcomes leave the selector state exactly as at entry; the same
holds for the select backend's Error outcome.  But on the select backend's
TimedOut outcome, `select` has cleared the `_reader` bitmap in place and
the code never re-arms it: descriptor 5 is no longer watched afterwards. -/
theorem error_paths_state_eval :
    (epollWaitOne (epollWantRead 5 (epollInit 3 4)) [.ready []] 0).state
      = epollWantRead 5 (epollInit 3 4) ∧
    (epollWaitOne (epollWantRead 5 (epollInit 3 4)) [.failed 9] 0).state
      = epollWantRead 5 (epollInit 3 4) ∧
    (posixWaitOne (posixCreate [5]) (.failed 9) 0).state = posixCreate [5] ∧
    (posixWaitOne (posixCreate [5]) (.ready []) 0).ret = none ∧
    (posixWaitOne (posixCreate [5]) (.ready []) 0).state.reader = [] ∧
    (posixCreate [5]).reader = [5] := by
  rw [posixCreate_one]
  decide

/-- C4 (counterexample).  Registering descriptor 5 twice in the select
backend is not a no-op: `_fds` afterwards contains 5 twice, and a single
readiness batch then delivers 5 on two successive `wait_one` calls. -/
theorem duplicate_registration_counterexample :
    ((posixWantRead 5 (posixWantRead 5 posixEmpty)).fds).count 5 = 2 ∧
    (posixWaitOne (posixWantRead 5 (posixWantRead 5 posixEmpty)) (.ready [5]) 0).ret = some 5 ∧
    (posixWaitOne
      (posixWaitOne (posixWantRead 5 (posixWantRead 5 posixEmpty)) (.ready [5]) 0).state
      (.ready []) 0).ret = some 5 := by
  rw [posixWant_dup]
  decide

/-- C4 (amended).  In the epoll backend, registering an
already-registered descriptor is a no-op (`EPOLL_CTL_ADD` fails with
`EEXIST`, ignored), so the interest table stays duplicate-free under
`want_read`/`cancel_read`.  In the select backend, every `want_read`
appends one more copy of the descriptor to `_fds` (one copy per
registration), so re-registration is neither a no-op nor idempotent. -/
theorem registration_idempotence_amended :
    (∀ (s : EpollSelector) (fd : Int), fd ∈ s.interest → epollWantRead fd s = s) ∧
    (∀ (s : EpollSelector) (fd : Int), s.interest.Nodup →
      ((epollWantRead fd s).interest.Nodup ∧ (epollCancelRead fd s).interest.Nodup)) ∧
    (∀ (s : PosixSelector) (fd : Int),
      (posixWantRead fd s).fds.count fd = s.fds.count fd + 1) := by
  refine ⟨?_, ?_, ?_⟩
  · intro s fd h
    unfold epollWantRead
    rw [if_pos h]
  · intro s fd h
    constructor
    · unfold epollWantRead
      split
      · exact h
      · next hnot =>
        rw [List.nodup_append]
        refine ⟨h, List.nodup_singleton fd, ?_⟩
        intro a ha hfd
        exact hnot ((List.mem_singleton.mp hfd) ▸ ha)
    · exact h.filter _
  · intro s fd
    have hperm := List.mergeSort_perm (s.fds ++ [fd]) (fun a b => a ≤ b)
    unfold posixWantRead
    simp only
    rw [hperm.count_eq]
    simp

/-- Witness for `registration_idempotence_amended` at concrete inputs. -/
theorem registration_idempotence_amended_witness :
    epollWantRead 4 (epollInit 3 4) = epollInit 3 4 ∧
    ((epollWantRead 5 (epollInit 3 4)).interest.Nodup ∧
     (epollCancelRead 5 (epollInit 3 4)).interest.Nodup) ∧
    (posixWantRead 5 (posixWantRead 5 posixEmpty)).fds.count 5 =
      (posixWantRead 5 posixEmpty).fds.count 5 + 1 :=
  ⟨registration_idempotence_amended.1 (epollInit 3 4) 4 (by decide),
   registration_idempotence_amended.2.1 (epollInit 3 4) 5 (by decide),
   registration_idempotence_amended.2.2 (posixWantRead 5 posixEmpty) 5⟩

/-- C5.  Both backends map a zero result of the OS readiness call to
the TimedOut outcome (`nullopt` with errno `EAGAIN` — in the select
backend the `EAGAIN` was planted by the failed fast-path
`try_pop_pending`) and a negative result to the Error outcome (`nullopt`
with errno the OS error code), identically, so the two outcomes are
distinguishable by the caller in the same way for both backends whenever
the error code is not `EAGAIN` itself (true of every documented `select` /
`epoll_wait` failure; the `EINTR` case is settled separately). -/
theorem nonpositive_result_taxonomy :
    (∀ (s : PosixSelector) (R : List Int) (e0 : Int),
      s.fds ≠ [] → s.pending = [] → (∀ fd ∈ s.reader, fd ∉ R) →
      posixWaitOne s (.ready R) e0 =
        { ret := none, state := { s with reader := [] }, errno := EAGAIN }) ∧
    (∀ (s : PosixSelector) (e e0 : Int), s.fds ≠ [] → s.pending = [] →
      posixWaitOne s (.failed e) e0 = { ret := none, state := s, errno := e }) ∧
    (∀ (s : EpollSelector) (rest : List EpollOs) (e0 : Int), s.pending = [] →
      epollWaitOne s (.ready [] :: rest) e0 =
        { ret := none, state := s, errno := EAGAIN }) ∧
    (∀ (s : EpollSelector) (e : Int) (rest : List EpollOs) (e0 : Int),
      s.pending = [] → e ≠ EINTR →
      epollWaitOne s (.failed e :: rest) e0 =
        { ret := none, state := s, errno := e }) := by
  refine ⟨?_, ?_, ?_, ?_⟩
  · exact fun s R e0 h1 h2 h3 => posixWaitOne_timeout s R e0 h1 h2 h3
  · exact fun s e e0 h1 h2 => posixWaitOne_failed s e e0 h1 h2
  · intro s rest e0 h1
    rw [epollWaitOne_of_empty s _ e0 h1, epollWaitLoop_zero]
  · intro s e rest e0 h1 h2
    rw [epollWaitOne_of_empty s _ e0 h1, epollWaitLoop_failed s e rest e0 h2]

/-- Witness for `nonpositive_result_taxonomy`: with watched descriptor 5
and no readiness, both backends time out with errno `EAGAIN`; with a
failing readiness call (`EBADF`), both surface errno `EBADF`. -/
theorem nonpositive_result_taxonomy_witness :
    posixWaitOne (posixCreate [5]) (.ready []) 0 =
      { ret := none,
        state := { posixCreate [5] with reader := [] }, errno := EAGAIN } ∧
    posixWaitOne (posixCreate [5]) (.failed EBADF) 0 =
      { ret := none, state := posixCreate [5], errno := EBADF } ∧
    epollWaitOne (epollWantRead 5 (epollInit 3 4)) [.ready []] 0 =
      { ret := none, state := epollWantRead 5 (epollInit 3 4), errno := EAGAIN } ∧
    epollWaitOne (epollWantRead 5 (epollInit 3 4)) [.failed EBADF] 0 =
      { ret := none, state := epollWantRead 5 (epollInit 3 4), errno := EBADF } :=
  ⟨nonpositive_result_taxonomy.1 (posixCreate [5]) [] 0 (by rw [posixCreate_one]; decide)
      (by rw [posixCreate_one]) (by simp),
   nonpositive_result_taxonomy.2.1 (posixCreate [5]) EBADF 0
      (by rw [posixCreate_one]; decide) (by rw [posixCreate_one]),
   nonpositive_result_taxonomy.2.2.1 (epollWantRead 5 (epollInit 3 4)) [] 0 (by decide),
   nonpositive_result_taxonomy.2.2.2 (epollWantRead 5 (epollInit 3 4)) EBADF [] 0
      (by decide) (by decide)⟩

/-- C6 (counterexample).  The select backend does not retry a
readiness call that failed with `EINTR`: a single `select` failure with
errno `EINTR` makes `wait_one` return immediately (`nullopt` with errno
`EINTR`), surfacing the signal interruption to the caller. -/
theorem select_surfaces_eintr_counterexample :
    posixWaitOne (posixCreate [5]) (.failed EINTR) 0 =
      { ret := none, state := posixCreate [5], errno := EINTR } := by
  rw [posixCreate_one]
  decide

/-- C6 (amended).  Only the epoll backend retries `EINTR` internally:
its `epoll_wait` loop consumes an `EINTR` failure and issues the next OS
call, while any other negative result is surfaced as Error.  The select
backend performs no retry: any negative `select` result — `EINTR`
included — is returned to the caller as `nullopt` with that errno. -/
theorem eintr_retry_amended :
    (∀ (s : EpollSelector) (rest : List EpollOs) (e0 : Int), s.pending = [] →
      epollWaitOne s (.failed EINTR :: rest) e0 = epollWaitOne s rest EINTR) ∧
    (∀ (s : EpollSelector) (e : Int) (rest : List EpollOs) (e0 : Int),
      s.pending = [] → e ≠ EINTR →
      epollWaitOne s (.failed e :: rest) e0 = { ret := none, state := s, errno := e }) ∧
    (∀ (s : PosixSelector) (e e0 : Int), s.fds ≠ [] → s.pending = [] →
      posixWaitOne s (.failed e) e0 = { ret := none, state := s, errno := e }) := by
  refine ⟨?_, ?_, ?_⟩
  · intro s rest e0 h1
    rw [epollWaitOne_of_empty s _ e0 h1, epollWaitLoop_eintr,
        epollWaitOne_of_empty s rest EINTR h1]
  · intro s e rest e0 h1 h2
    rw [epollWaitOne_of_empty s _ e0 h1, epollWaitLoop_failed s e rest e0 h2]
  · exact fun s e e0 h1 h2 => posixWaitOne_failed s e e0 h1 h2

/-- Witness for `eintr_retry_amended`: the epoll backend turns an `EINTR`
failure followed by a timed-out retry into TimedOut, surfaces `EBADF`,
and the select backend surfaces `EINTR` itself. -/
theorem eintr_retry_amended_witness :
    epollWaitOne (epollInit 3 4) [.failed EINTR, .ready []] 0 =
      epollWaitOne (epollInit 3 4) [.ready []] EINTR ∧
    epollWaitOne (epollInit 3 4) [.failed EBADF] 0 =
      { ret := none, state := epollInit 3 4, errno := EBADF } ∧
    posixWaitOne (posixCreate [5]) (.failed EBADF) 0 =
      { ret := none, state := posixCreate [5], errno := EBADF } :=
  ⟨eintr_retry_amended.1 (epollInit 3 4) [.ready []] 0 (by decide),
   eintr_retry_amended.2.1 (epollInit 3 4) EBADF [] 0 (by decide) (by decide),
   eintr_retry_amended.2.2 (posixCreate [5]) EBADF 0
      (by rw [posixCreate_one]; decide) (by rw [posixCreate_one])⟩

/-- C7.  In the epoll backend's `wait_one`, after triaging one batch
the pending queue is consulted first: the returned value is the head of
the real (non-eventfd) entries of the batch, in report order, even when
the eventfd also fired; only when the batch contained no real entry does
the call return `nullopt` with errno `EINTR` if the eventfd fired
(Interrupted) and `EAGAIN` otherwise (TimedOut).  Hypotheses: the fast
path found the queue empty, the kernel reports the eventfd at most once
per batch and only when its counter is nonzero. -/
theorem epoll_pending_priority (s : EpollSelector) (evs : List Int)
    (rest : List EpollOs) (e0 : Int)
    (hpend : s.pending = []) (hevs : evs ≠ [])
    (hcount : evs.count s.eventFd ≤ 1)
    (hcnt : s.eventFd ∈ evs → 0 < s.counter) :
    (epollWaitOne s (.ready evs :: rest) e0).ret =
      (evs.filter (fun fd => decide (fd ≠ s.eventFd))).head? ∧
    (epollWaitOne s (.ready evs :: rest) e0).state.pending =
      (evs.filter (fun fd => decide (fd ≠ s.eventFd))).tail ∧
    (epollWaitOne s (.ready evs :: rest) e0).errno =
      (if evs.filter (fun fd => decide (fd ≠ s.eventFd)) = [] then
        (if s.eventFd ∈ evs then EINTR else EAGAIN)
       else e0) := by
  match evs, hevs with
  | f :: evs', _ =>
    rw [epollWaitOne_of_empty s _ e0 hpend,
        epollWaitLoop_batch s f evs' rest e0 hpend]
    rw [epollTriage_piped s.eventFd (f :: evs') [] s.counter hcount hcnt]
    split
    next heq =>
      rw [heq]
      simp
    next g rest' heq =>
      rw [heq]
      simp [List.ne_nil_of_mem (heq ▸ List.mem_cons_self g rest')]

lemma posixRun_batch (s : PosixSelector) (R : List Int) (e0 : Int) (f : Int) (rest : List Int)
    (h1 : s.fds ≠ []) (h2 : s.pending = [])
    (h3 : s.fds.Pairwise (fun a b => a ≤ b))
    (h5 : ∀ fd, fd ∈ s.reader ↔ fd ∈ s.fds)
    (h6 : ∀ fd ∈ s.fds, 0 ≤ fd) (h7 : s.breakPipeRead = -1)
    (hb : s.fds.filter (fun fd => decide (fd ∈ R)) = f :: rest) :
    (posixRun s ((PosixOs.ready R, e0) ::
        List.replicate (rest.length + 1) (PosixOs.ready [], e0))).1 =
      (f :: rest).map some ++ [none] := by
  rw [posixRun_cons, posixWaitOne_batch s R e0 h1 h2 h3 h5 h6 h7 f rest hb]
  have hdrain := posixRun_drain rest
    { s with reader := s.reader.filter (fun fd => decide (fd ∈ R)), pending := rest }
    e0 h1 rfl
  simp only [List.map_cons, List.cons_append]
  rw [hdrain]

lemma epollRun_batch (s : EpollSelector) (g : Int) (evs' : List Int) (e0 : Int)
    (f : Int) (rest : List Int) (h2 : s.pending = [])
    (hb : (g :: evs').filter (fun fd => decide (fd ≠ s.eventFd)) = f :: rest) :
    (epollRun s (([EpollOs.ready (g :: evs')], e0) ::
        List.replicate (rest.length + 1) ([EpollOs.ready []], e0))).1 =
      (f :: rest).map some ++ [none] := by
  rw [epollRun_cons, epollWaitOne_of_empty s _ e0 h2,
      epollWaitLoop_batch s g evs' [] e0 h2, hb]
  simp only [List.map_cons, List.cons_append]
  have hdrain := epollRun_drain rest
    { s with pending := rest,
             counter := if s.eventFd ∈ g :: evs' then 0 else s.counter } e0 rfl
  rw [hdrain]

/-- C2.  A nonempty batch of simultaneously-ready registered
descriptors (one OS readiness call) is delivered by successive `wait_one`
calls exactly once each — the run of calls returns precisely the batch,
duplicate-free, covering every ready watched descriptor — before the
selector reports TimedOut (`none`) again.  Select backend: the batch is
`_fds.filter (· ∈ R)`; epoll backend: the reported events minus the
eventfd.  Select-side hypotheses are the state invariants of a selector
whose `_reader` set is in sync with `_fds` (duplicate-free registration,
real fds). -/
theorem batch_delivered_exactly_once :
    (∀ (s : PosixSelector) (R : List Int) (e0 : Int) (f : Int) (rest : List Int),
      s.fds ≠ [] → s.pending = [] →
      s.fds.Pairwise (fun a b => a ≤ b) → s.fds.Nodup →
      (∀ fd, fd ∈ s.reader ↔ fd ∈ s.fds) →
      (∀ fd ∈ s.fds, 0 ≤ fd) → s.breakPipeRead = -1 →
      s.fds.filter (fun fd => decide (fd ∈ R)) = f :: rest →
      ((posixRun s ((PosixOs.ready R, e0) ::
          List.replicate (rest.length + 1) (PosixOs.ready [], e0))).1 =
        (f :: rest).map some ++ [none] ∧
       (f :: rest).Nodup ∧
       (∀ fd, fd ∈ f :: rest ↔ (fd ∈ s.fds ∧ fd ∈ R)))) ∧
    (∀ (s : EpollSelector) (evs : List Int) (e0 : Int) (f : Int) (rest : List Int),
      s.pending = [] → evs.Nodup →
      evs.filter (fun fd => decide (fd ≠ s.eventFd)) = f :: rest →
      ((epollRun s (([EpollOs.ready evs], e0) ::
          List.replicate (rest.length + 1) ([EpollOs.ready []], e0))).1 =
        (f :: rest).map some ++ [none] ∧
       (f :: rest).Nodup ∧
       (∀ fd, fd ∈ f :: rest ↔ (fd ∈ evs ∧ fd ≠ s.eventFd)))) := by
  constructor
  · intro s R e0 f rest h1 h2 h3 h4 h5 h6 h7 hb
    refine ⟨posixRun_batch s R e0 f rest h1 h2 h3 h5 h6 h7 hb, hb ▸ h4.filter _, ?_⟩
    intro fd
    rw [← hb, List.mem_filter]
    simp
  · intro s evs e0 f rest h2 hnodup hb
    match evs, hb with
    | g :: evs', hb =>
      refine ⟨epollRun_batch s g evs' e0 f rest h2 hb, hb ▸ hnodup.filter _, ?_⟩
      intro fd
      rw [← hb, List.mem_filter]
      simp

/-- Witness for `batch_delivered_exactly_once`: select backend with
watched `{5, 9}` both ready delivers `some 5`, `some 9`, then `none`;
epoll backend with events `[5]` delivers `some 5` then `none`. -/
theorem batch_delivered_exactly_once_witness :
    (posixRun (posixCreate [5, 9]) ((PosixOs.ready [5, 9], 0) ::
        List.replicate 2 (PosixOs.ready [], 0))).1 =
      [some 5, some 9, none] ∧
    (epollRun (epollWantRead 5 (epollInit 3 4)) (([EpollOs.ready [5]], 0) ::
        List.replicate 1 ([EpollOs.ready []], 0))).1 =
      [some 5, none] := by
  have hp := batch_delivered_exactly_once.1 (posixCreate [5, 9]) [5, 9] 0 5 [9]
    (by rw [posixCreate_two]; decide) (by rw [posixCreate_two])
    (by rw [posixCreate_two]; decide) (by rw [posixCreate_two]; decide)
    (by rw [posixCreate_two]; exact fun fd => Iff.rfl)
    (by rw [posixCreate_two]; decide) (by rw [posixCreate_two])
    (by rw [posixCreate_two]; decide)
  have he := batch_delivered_exactly_once.2 (epollWantRead 5 (epollInit 3 4)) [5] 0 5 []
    (by decide) (by decide) (by decide)
  exact ⟨by simpa using hp.1, by simpa using he.1⟩

/-- Witness for `epoll_pending_priority`: with the eventfd (4) and real
descriptor 5 in the same batch after a `wakeup`, the real descriptor is
returned; with only the eventfd in the batch, Interrupted (`EINTR`). -/
theorem epoll_pending_priority_witness :
    (epollWaitOne (epollWakeup (epollWantRead 5 (epollInit 3 4))) [.ready [4, 5]] 0).ret
      = some 5 ∧
    (epollWaitOne (epollWakeup (epollWantRead 5 (epollInit 3 4))) [.ready [4]] 0).errno
      = EINTR := by
  have h1 := epoll_pending_priority (epollWakeup (epollWantRead 5 (epollInit 3 4)))
    [4, 5] [] 0 (by decide) (by decide) (by decide) (by decide)
  have h2 := epoll_pending_priority (epollWakeup (epollWantRead 5 (epollInit 3 4)))
    [4] [] 0 (by decide) (by decide) (by decide) (by decide)
  constructor
  · rw [h1.1]; decide
  · rw [h2.2.2]; decide

/-- C8.  In the select backend, the descriptors of one readiness
batch are delivered in ascending numeric order (`_fds` is kept sorted and
scanned in order), and while the pending queue is nonempty a `wait_one`
call returns its front without consulting the OS readiness call at all —
its result is independent of the `select` outcome. -/
theorem select_batch_order :
    (∀ (s : PosixSelector) (R : List Int) (e0 : Int) (f : Int) (rest : List Int),
      s.fds ≠ [] → s.pending = [] →
      s.fds.Pairwise (fun a b => a ≤ b) →
      (∀ fd, fd ∈ s.reader ↔ fd ∈ s.fds) →
      (∀ fd ∈ s.fds, 0 ≤ fd) → s.breakPipeRead = -1 →
      s.fds.filter (fun fd => decide (fd ∈ R)) = f :: rest →
      ((posixRun s ((PosixOs.ready R, e0) ::
          List.replicate (rest.length + 1) (PosixOs.ready [], e0))).1 =
        (f :: rest).map some ++ [none] ∧
       (f :: rest).Pairwise (fun a b => a ≤ b))) ∧
    (∀ (s : PosixSelector) (os os' : PosixOs) (e0 : Int),
      s.pending ≠ [] → posixWaitOne s os e0 = posixWaitOne s os' e0) := by
  constructor
  · intro s R e0 f rest h1 h2 h3 h5 h6 h7 hb
    exact ⟨posixRun_batch s R e0 f rest h1 h2 h3 h5 h6 h7 hb, hb ▸ h3.filter _⟩
  · exact fun s os os' e0 h => posixWaitOne_os_irrelevant s os os' e0 h

/-- Witness for `select_batch_order` (Scenario A): watching `{5, 9}` with
both ready, successive calls return 5 then 9 (ascending) then TimedOut,
and the middle call's result does not depend on the OS outcome. -/
theorem select_batch_order_witness :
    (posixRun (posixCreate [5, 9]) ((PosixOs.ready [5, 9], 0) ::
        List.replicate 2 (PosixOs.ready [], 0))).1 =
      [some 5, some 9, none] ∧
    posixWaitOne { posixCreate [5, 9] with pending := [9] } (.ready []) 0 =
      posixWaitOne { posixCreate [5, 9] with pending := [9] } (.failed EBADF) 0 := by
  have hp := select_batch_order.1 (posixCreate [5, 9]) [5, 9] 0 5 [9]
    (by rw [posixCreate_two]; decide) (by rw [posixCreate_two])
    (by rw [posixCreate_two]; decide)
    (by rw [posixCreate_two]; exact fun fd => Iff.rfl)
    (by rw [posixCreate_two]; decide) (by rw [posixCreate_two])
    (by rw [posixCreate_two]; decide)
  refine ⟨by simpa using hp.1, ?_⟩
  exact select_batch_order.2 _ (.ready []) (.failed EBADF) 0
    (by rw [posixCreate_two]; decide)

/-- C9.  In every reachable state of either backend, the wakeup
channel descriptor (break-pipe read end `-1` for select, the eventfd for
epoll) is never in the pending queue, and `wait_one` never returns it —
whatever the OS readiness input. -/
theorem wakeup_channel_never_delivered :
    (∀ (s : PosixSelector), PosixReach s →
      s.breakPipeRead ∉ s.pending ∧
      ∀ (os : PosixOs) (e0 f : Int),
        (posixWaitOne s os e0).ret = some f → f ≠ s.breakPipeRead) ∧
    (∀ (s : EpollSelector), EpollReach s →
      s.eventFd ∉ s.pending ∧
      ∀ (script : List EpollOs) (e0 f : Int),
        (epollWaitOne s script e0).ret = some f → f ≠ s.eventFd) := by
  constructor
  · intro s hr
    obtain ⟨h1, h2, h3, h4⟩ := posixReach_inv hr
    constructor
    · intro hmem
      have hge := h4 _ hmem
      rw [h1] at hge
      omega
    · intro os e0 f hret hf
      rcases posixWaitOne_ret_mem s os e0 f hret with hm | hm
      · have hge := h4 f hm
        rw [hf, h1] at hge
        omega
      · have hge := h3 f hm
        rw [hf, h1] at hge
        omega
  · intro s hr
    have hnin := epollReach_inv hr
    refine ⟨hnin, ?_⟩
    intro script e0 f hret hf
    rcases epollWaitOne_ret_mem s script e0 f hret with hm | hm
    · exact hnin (hf ▸ hm)
    · exact hm hf

/-- Witness for `wakeup_channel_never_delivered` at reachable concrete
states, with a ready batch delivering descriptor 5 in both backends. -/
theorem wakeup_channel_never_delivered_witness :
    (posixCreate [5]).breakPipeRead ∉ (posixCreate [5]).pending ∧
    (5 : Int) ≠ (posixCreate [5]).breakPipeRead ∧
    (epollInit 3 4).eventFd ∉ (epollInit 3 4).pending ∧
    (5 : Int) ≠ (epollWantRead 5 (epollInit 3 4)).eventFd := by
  have hp := wakeup_channel_never_delivered.1 (posixCreate [5])
    (PosixReach.create [5] (by decide))
  have he0 := wakeup_channel_never_delivered.2 (epollInit 3 4) (EpollReach.init 3 4)
  have he := wakeup_channel_never_delivered.2 (epollWantRead 5 (epollInit 3 4))
    (EpollReach.want 5 (EpollReach.init 3 4))
  refine ⟨hp.1, ?_, he0.1, ?_⟩
  · exact hp.2 (.ready [5]) 0 5 (by rw [posixCreate_one]; decide)
  · exact he.2 [.ready [5]] 0 5 (by decide)


end ReadSelector
